import Mathlib

/-!
Shallow embedding of the Coderr marketplace backend (Django/DRF application):
user registration and login, business/customer profiles, offers with tiered
packages, orders, reviews, and aggregate statistics.

Database rows are modelled as structures, tables as lists of rows, and each
API operation as a function from the database state (plus request data) to an
`Except`-style result together with the successor state.  Field and object
validation follows the serializer code; permission classes become boolean
predicates on the caller.  Decimal amounts are modelled as rationals, JSON
feature lists as lists of strings, and choice fields as strings (exactly the
values of the corresponding `*_CHOICES` lists in the models).
-/

namespace Coderr

/-- DRF-level error taxonomy: `validation` = ValidationError (HTTP 400),
`notFound` = NotFound (404), `permissionDenied` = PermissionDenied (403),
`keyError` = an uncaught Python `KeyError` escaping the request handler. -/
inductive ApiError where
  | validation (msg : String)
  | notFound (msg : String)
  | permissionDenied
  | keyError (key : String)
deriving DecidableEq, Repr

/-- `django.contrib.auth.models.User` row: `username` is declared
`unique=True` on the stock Django model, `email` is a plain non-unique
`EmailField`.  The password is stored abstractly (hashing is external). -/
structure UserRow where
  id : Nat
  username : String
  email : String
  password : String
deriving DecidableEq, Repr

/-- `profile_app.models.UserProfile`: one-to-one with User via `user`,
`type` is a choice field over `USER_TYPE_CHOICES = [customer, business]`. -/
structure ProfileRow where
  user : Nat
  type : String
deriving DecidableEq, Repr

/-- `offer_app.models.Offer` row (timestamps and image omitted: no claim
mentions them). -/
structure OfferRow where
  id : Nat
  user : Nat
  title : String
  description : String
deriving DecidableEq, Repr

/-- `offer_app.models.OfferDetail` row; `offer_type` ranges over
`OFFER_TYPE_CHOICES = [basic, standard, premium]`. -/
structure OfferDetailRow where
  id : Nat
  offer : Nat
  title : String
  revisions : Nat
  delivery_time_in_days : Nat
  price : ℚ
  features : List String
  offer_type : String
deriving DecidableEq, Repr

/-- `order_app.models.Order` row; `status` ranges over
`STATUS_CHOICES = [in_progress, completed, cancelled]` with default
`in_progress`. -/
structure OrderRow where
  id : Nat
  customer_user : Nat
  business_user : Nat
  title : String
  revisions : Nat
  delivery_time_in_days : Nat
  price : ℚ
  features : List String
  offer_type : String
  status : String
deriving DecidableEq, Repr

/-- `review_app.models.Review` row. -/
structure ReviewRow where
  id : Nat
  business_user : Nat
  reviewer : Nat
  rating : Nat
  description : String
deriving DecidableEq, Repr

/-- The relational store: one list per table. -/
structure DB where
  users : List UserRow
  profiles : List ProfileRow
  offers : List OfferRow
  offerDetails : List OfferDetailRow
  orders : List OrderRow
  reviews : List ReviewRow
deriving DecidableEq, Repr

/-- `user.profile.type` access: `none` models the `AttributeError` raised
when the user has no profile (the permission helpers catch it). -/
def profileType (db : DB) (uid : Nat) : Option String :=
  (db.profiles.find? (fun p => p.user == uid)).map (fun p => p.type)

/-- The three package tiers, in the order of `OFFER_TYPE_CHOICES`. -/
def offerTypeChoices : List String := ["basic", "standard", "premium"]

/-- The order statuses, in the order of `Order.STATUS_CHOICES`. -/
def statusChoices : List String := ["in_progress", "completed", "cancelled"]

/-! ## Offer model: derived minima (`offer_app/models.py`) -/

/-- Python `min` over a nonempty list (left fold from the first element). -/
def pyMin {α : Type} [Min α] : α → List α → α
  | x, [] => x
  | x, y :: ys => pyMin (min x y) ys

/-- `Offer.min_price`: `details = self.details.all(); if details:
return min(detail.price for detail in details); return 0`. -/
def Offer.min_price (db : DB) (o : OfferRow) : ℚ :=
  match (db.offerDetails.filter (fun d => d.offer == o.id)).map
      (fun d => d.price) with
  | [] => 0
  | p :: ps => pyMin p ps

/-- `Offer.min_delivery_time`: same shape over `delivery_time_in_days`. -/
def Offer.min_delivery_time (db : DB) (o : OfferRow) : Nat :=
  match (db.offerDetails.filter (fun d => d.offer == o.id)).map
      (fun d => d.delivery_time_in_days) with
  | [] => 0
  | t :: ts => pyMin t ts

/-! ## Generic list helpers for Django query-set operations -/

/-- Replace the first element satisfying `p` by its image under `f`
(the effect of `Model.objects.get(...)` followed by mutate-and-`save()`
when exactly one row matches). -/
def replaceFirst {α : Type} (p : α → Bool) (f : α → α) : List α → List α
  | [] => []
  | x :: xs => if p x then f x :: xs else x :: replaceFirst p f xs

/-- Fresh primary key for a table: one more than the largest id in use. -/
def nextId (ids : List Nat) : Nat := ids.foldr max 0 + 1

/-! ## Permission classes -/

/-- `order_app.api.permissions.IsCustomerUser.has_permission` (for an
authenticated caller): `user.profile.type == 'customer'`, `False` on
`AttributeError` (missing profile). -/
def IsCustomerUser (db : DB) (uid : Nat) : Bool :=
  match profileType db uid with
  | some t => t == "customer"
  | none => false

/-- `offer_app.api.permissions.IsBusinessUser` and
`review_app`'s business checks: `user.profile.type == 'business'`. -/
def IsBusinessUser (db : DB) (uid : Nat) : Bool :=
  match profileType db uid with
  | some t => t == "business"
  | none => false

/-- `order_app.api.permissions.IsBusinessUserForOrder
._is_business_and_owner`: `user.profile.type == 'business' and
obj.business_user == user`, `False` on `AttributeError`. -/
def IsBusinessUserForOrder (db : DB) (uid : Nat) (o : OrderRow) : Bool :=
  match profileType db uid with
  | some t => t == "business" && o.business_user == uid
  | none => false

/-! ## Order creation (`order_app/api/serializers.py`, `views.py`) -/

/-- `OrderCreateSerializer.validate_offer_detail_id`: look the detail up,
raising `NotFound("Offer detail not found.")` when absent. -/
def validate_offer_detail_id (db : DB) (value : Nat) : Except ApiError Nat :=
  match db.offerDetails.find? (fun d => d.id == value) with
  | some _ => Except.ok value
  | none => Except.error (ApiError.notFound "Offer detail not found.")

/-- `OrderCreateSerializer._create_order_from_detail`: copy the detail's
fields into a fresh Order; `status` takes the model default
`in_progress`; `business_user = offer_detail.offer.user`. -/
def create_order_from_detail (db : DB) (offer_detail : OfferDetailRow)
    (customer_user : Nat) : Option OrderRow :=
  match db.offers.find? (fun o => o.id == offer_detail.offer) with
  | none => none
  | some off => some
      { id := nextId (db.orders.map (fun o => o.id))
        customer_user := customer_user
        business_user := off.user
        title := offer_detail.title
        revisions := offer_detail.revisions
        delivery_time_in_days := offer_detail.delivery_time_in_days
        price := offer_detail.price
        features := offer_detail.features
        offer_type := offer_detail.offer_type
        status := "in_progress" }

/-- `OrderListCreateView` POST: permissions `IsAuthenticated` +
`IsCustomerUser`, then `OrderCreateSerializer` validation and `create`.
Returns the created row (or the error) with the successor database; the
database is unchanged on every error path.  The `none` branch of
`create_order_from_detail` (a dangling `offer` foreign key) is
unreachable under referential integrity; it is surfaced as a 404. -/
def order_create_view (db : DB) (caller : Nat) (offer_detail_id : Nat) :
    Except ApiError OrderRow × DB :=
  if IsCustomerUser db caller then
    match validate_offer_detail_id db offer_detail_id with
    | Except.error e => (Except.error e, db)
    | Except.ok v =>
        match db.offerDetails.find? (fun d => d.id == v) with
        | none => (Except.error (ApiError.notFound "Offer detail not found."), db)
        | some d =>
            match create_order_from_detail db d caller with
            | none => (Except.error (ApiError.notFound "Offer not found."), db)
            | some ord => (Except.ok ord, { db with orders := db.orders ++ [ord] })
  else (Except.error ApiError.permissionDenied, db)

/-! ## Order status update (`order_app/api/serializers.py`, `views.py`) -/

/-- `OrderStatusUpdateSerializer.validate_status`: membership in
`STATUS_CHOICES`, else ValidationError. -/
def validate_status (value : String) : Except ApiError String :=
  if statusChoices.contains value then Except.ok value
  else Except.error (ApiError.validation "Invalid status.")

/-- `OrderDetailView` PATCH/PUT: permissions `IsAuthenticated` +
`IsBusinessUserForOrder` (object-level), serializer
`OrderStatusUpdateSerializer` whose only writable field is `status`; the
default `ModelSerializer.update` hence assigns `status` alone. -/
def order_status_update_view (db : DB) (caller : Nat) (orderId : Nat)
    (value : String) : Except ApiError OrderRow × DB :=
  match db.orders.find? (fun o => o.id == orderId) with
  | none => (Except.error (ApiError.notFound "Order not found."), db)
  | some o =>
      if IsBusinessUserForOrder db caller o then
        match validate_status value with
        | Except.error e => (Except.error e, db)
        | Except.ok v =>
            let o' := { o with status := v }
            (Except.ok o',
              { db with orders :=
                  replaceFirst (fun r => r.id == orderId) (fun _ => o') db.orders })
      else (Except.error ApiError.permissionDenied, db)

/-! ## Offer creation and update (`offer_app/api/serializers.py`) -/

/-- Payload of one entry of the nested `details` list
(`OfferDetailSerializer` fields, without the read-only `id`). -/
structure DetailData where
  title : String
  revisions : Nat
  delivery_time_in_days : Nat
  price : ℚ
  features : List String
  offer_type : String
deriving DecidableEq, Repr

/-- Payload of `OfferCreateUpdateSerializer` (writable fields). -/
structure OfferData where
  title : String
  description : String
  details : List DetailData
deriving DecidableEq, Repr

/-- Python `set(xs) == set(ys)` on string lists. -/
def sameSet (xs ys : List String) : Bool :=
  xs.all (fun x => ys.contains x) && ys.all (fun y => xs.contains y)

/-- `OfferCreateUpdateSerializer.validate_offer_types` (creation):
`set(offer_types) != set(['basic','standard','premium'])` raises. -/
def validate_offer_types (value : List DetailData) : Except ApiError Unit :=
  if sameSet (value.map (fun d => d.offer_type)) offerTypeChoices then
    Except.ok ()
  else
    Except.error
      (ApiError.validation "Offer must contain basic, standard, and premium details.")

/-- `OfferCreateUpdateSerializer.validate_creation_details`:
`len(value) != 3` raises, then tier-set check. -/
def validate_creation_details (value : List DetailData) : Except ApiError Unit :=
  if value.length ≠ 3 then
    Except.error (ApiError.validation "An offer must contain exactly 3 details.")
  else validate_offer_types value

/-- `OfferCreateUpdateSerializer.validate_offer_types_update`: each
`offer_type` must be a valid choice. -/
def validate_offer_types_update (value : List DetailData) : Except ApiError Unit :=
  if value.all (fun d => offerTypeChoices.contains d.offer_type) then Except.ok ()
  else Except.error (ApiError.validation "Invalid offer_type.")

/-- Materialise one nested `details` entry as an `OfferDetail` row. -/
def mkDetailRow (did offerId : Nat) (d : DetailData) : OfferDetailRow :=
  { id := did
    offer := offerId
    title := d.title
    revisions := d.revisions
    delivery_time_in_days := d.delivery_time_in_days
    price := d.price
    features := d.features
    offer_type := d.offer_type }

/-- `create_offer_details`: loop `OfferDetail.objects.create(offer=offer,
**detail_data)`, threading fresh primary keys. -/
def create_offer_details (offerId : Nat) (dds : List DetailData)
    (rows : List OfferDetailRow) (nid : Nat) : List OfferDetailRow :=
  match dds with
  | [] => rows
  | d :: ds => create_offer_details offerId ds (rows ++ [mkDetailRow nid offerId d]) (nid + 1)

/-- `OfferListCreateView` POST: permissions `IsAuthenticated` +
`IsBusinessUser`; `validate_details` with no instance runs
`validate_creation_details`; on success `create` persists the Offer and
its detail rows (validation happens before any write, so the database is
unchanged on every error path). -/
def offer_create_view (db : DB) (caller : Nat) (dat : OfferData) :
    Except ApiError OfferRow × DB :=
  if IsBusinessUser db caller then
    match validate_creation_details dat.details with
    | Except.error e => (Except.error e, db)
    | Except.ok _ =>
        let off : OfferRow :=
          { id := nextId (db.offers.map (fun o => o.id))
            user := caller
            title := dat.title
            description := dat.description }
        (Except.ok off,
          { db with
              offers := db.offers ++ [off]
              offerDetails :=
                create_offer_details off.id dat.details db.offerDetails
                  (nextId (db.offerDetails.map (fun d => d.id))) })
  else (Except.error ApiError.permissionDenied, db)

/-- `update_detail_fields`: `setattr` of every key of `detail_data`
(all the serializer's writable fields, the `offer` foreign key excluded)
followed by `save()`. -/
def update_detail_fields (detail : OfferDetailRow) (dd : DetailData) : OfferDetailRow :=
  { detail with
      title := dd.title
      revisions := dd.revisions
      delivery_time_in_days := dd.delivery_time_in_days
      price := dd.price
      features := dd.features
      offer_type := dd.offer_type }

/-- One iteration of `update_offer_details`:
`OfferDetail.objects.get_or_create(offer=instance, offer_type=...,
defaults=detail_data)`; when the row exists its fields are overwritten,
otherwise a fresh row is inserted.  Returns the table and next free id. -/
def get_or_create_detail (rows : List OfferDetailRow) (offerId : Nat)
    (dd : DetailData) (nid : Nat) : List OfferDetailRow × Nat :=
  if rows.any (fun r => r.offer == offerId && r.offer_type == dd.offer_type) then
    (replaceFirst (fun r => r.offer == offerId && r.offer_type == dd.offer_type)
      (fun r => update_detail_fields r dd) rows, nid)
  else (rows ++ [mkDetailRow nid offerId dd], nid + 1)

/-- `OfferCreateUpdateSerializer.update_offer_details`: fold
`get_or_create_detail` over the submitted `details` list. -/
def update_offer_details (rows : List OfferDetailRow) (offerId : Nat)
    (dds : List DetailData) (nid : Nat) : List OfferDetailRow × Nat :=
  match dds with
  | [] => (rows, nid)
  | d :: ds =>
      let step := get_or_create_detail rows offerId d nid
      update_offer_details step.1 offerId ds step.2

/-! ## Registration (`auth_app/api/serializers.py`, `views.py`) -/

/-- Payload of `UserRegistrationSerializer` (writable fields). -/
structure RegistrationRequest where
  username : String
  email : String
  password : String
  repeated_password : String
  type : String
deriving DecidableEq, Repr

/-- `registration_view` + `UserRegistrationSerializer`.  DRF field
validation runs first: the `username` field carries a uniqueness check
(the stock Django `User.username` column is `unique=True`, so
`ModelSerializer` derives a `UniqueValidator` for it; `User.email` is not
unique and gets none), and `type` is a `ChoiceField` over
`USER_TYPE_CHOICES`.  The serializer-level `validate` then compares
`password` with `repeated_password`.  Only after all of that does
`create` insert the `User` and its `UserProfile`. -/
def registration_view (db : DB) (req : RegistrationRequest) :
    Except ApiError UserRow × DB :=
  if db.users.any (fun u => u.username == req.username) then
    (Except.error (ApiError.validation "A user with that username already exists."), db)
  else if ¬ ["customer", "business"].contains req.type then
    (Except.error (ApiError.validation "Invalid type."), db)
  else if req.password ≠ req.repeated_password then
    (Except.error (ApiError.validation "Passwords do not match."), db)
  else
    let u : UserRow :=
      { id := nextId (db.users.map (fun x => x.id))
        username := req.username
        email := req.email
        password := req.password }
    (Except.ok u,
      { db with
          users := db.users ++ [u]
          profiles := db.profiles ++ [{ user := u.id, type := req.type }] })

/-! ## Login (`auth_app/api/serializers.py`) -/

/-- A value stored in the serializer's `attrs` dictionary. -/
inductive PyVal where
  | str (s : String)
  | userRef (id : Nat)
deriving DecidableEq, Repr

/-- Python `d[k] = v` on the `attrs` dictionary. -/
def dictSet (d : List (String × PyVal)) (k : String) (v : PyVal) :
    List (String × PyVal) :=
  if d.any (fun kv => kv.1 == k) then
    d.map (fun kv => if kv.1 == k then (k, v) else kv)
  else d ++ [(k, v)]

/-- Python `d[k]` lookup, `none` meaning `KeyError`. -/
def dictGet (d : List (String × PyVal)) (k : String) : Option PyVal :=
  (d.find? (fun kv => kv.1 == k)).map (fun kv => kv.2)

/-- `django.contrib.auth.authenticate`: the user whose username and
password match, if any (hash comparison abstracted to equality). -/
def authenticate (db : DB) (username password : String) : Option UserRow :=
  db.users.find? (fun u => u.username == username && u.password == password)

/-- `UserLoginSerializer._prepare_login_response`, verbatim from the
source: it assigns `attrs['user']`, `attrs['token']`, `attrs['email']`,
then its final statement is the bare expression `attrs['user_id']` — no
assignment and no `return`.  When `'user_id'` is absent the expression
raises `KeyError`; otherwise the value is discarded and the function
falls off the end, returning Python `None` (modelled as `Option.none` in
the success payload). -/
def prepare_login_response (attrs : List (String × PyVal)) (user : UserRow)
    (token : String) : Except ApiError (Option (List (String × PyVal))) :=
  let a1 := dictSet attrs "user" (PyVal.userRef user.id)
  let a2 := dictSet a1 "token" (PyVal.str token)
  let a3 := dictSet a2 "email" (PyVal.str user.email)
  match dictGet a3 "user_id" with
  | some _ => Except.ok none
  | none => Except.error (ApiError.keyError "user_id")

/-- `UserLoginSerializer.validate`: `attrs` holds exactly the writable
fields (`username`, `password`); failed authentication raises
`ValidationError('Invalid credentials.')`, success delegates to
`_prepare_login_response`.  `token` is the externally issued JWT. -/
def login_validate (db : DB) (username password token : String) :
    Except ApiError (Option (List (String × PyVal))) :=
  let attrs : List (String × PyVal) :=
    [("username", PyVal.str username), ("password", PyVal.str password)]
  match authenticate db username password with
  | none => Except.error (ApiError.validation "Invalid credentials.")
  | some user => prepare_login_response attrs user token

/-! ## Reviews (`review_app/models.py`, `api/serializers.py`) -/

/-- `ReviewSerializer.validate_business_user`: the target must exist
(primary-key field), have a profile, and be of business type. -/
def validate_business_user (db : DB) (target : Nat) : Except ApiError Nat :=
  match db.users.find? (fun u => u.id == target) with
  | none => Except.error (ApiError.validation "Business user not found.")
  | some _ =>
      match profileType db target with
      | none => Except.error (ApiError.validation "User has no profile.")
      | some t =>
          if t == "business" then Except.ok target
          else Except.error (ApiError.validation "Can only review business users.")

/-- Field validators on `Review.rating` (`MinValueValidator(1)`,
`MaxValueValidator(5)`) and `Review.description`
(`MinLengthValidator(10)`), run by the `ModelSerializer`. -/
def validate_review_fields (rating : Nat) (description : String) :
    Except ApiError Unit :=
  if rating < 1 ∨ 5 < rating then
    Except.error (ApiError.validation "Rating must be between 1 and 5.")
  else if description.length < 10 then
    Except.error (ApiError.validation "Description too short.")
  else Except.ok ()

/-- `ReviewListCreateView` POST: permission `IsCustomerUserForReview`
(customer role), field validation, the serializer-level duplicate check
(`Review.objects.filter(business_user=..., reviewer=request.user)` with
no instance), then `save()` which runs `Review.clean` — rejecting
self-reviews — before inserting. -/
def review_create_view (db : DB) (caller target rating : Nat)
    (description : String) : Except ApiError ReviewRow × DB :=
  if IsCustomerUser db caller then
    match validate_business_user db target with
    | Except.error e => (Except.error e, db)
    | Except.ok _ =>
        match validate_review_fields rating description with
        | Except.error e => (Except.error e, db)
        | Except.ok _ =>
            if db.reviews.any
                (fun r => r.business_user == target && r.reviewer == caller) then
              (Except.error
                (ApiError.validation "You have already reviewed this business user."), db)
            else if target == caller then
              (Except.error (ApiError.validation "Users cannot review themselves."), db)
            else
              let r : ReviewRow :=
                { id := nextId (db.reviews.map (fun x => x.id))
                  business_user := target
                  reviewer := caller
                  rating := rating
                  description := description }
              (Except.ok r, { db with reviews := db.reviews ++ [r] })
  else (Except.error ApiError.permissionDenied, db)

/-- `ReviewDetailView`/`ReviewUpdateView` PATCH with
`ReviewUpdateSerializer` (writable fields: `rating`, `description`
only); `save()` re-runs `Review.clean` on the unchanged user pair. -/
def review_update_view (db : DB) (reviewId rating : Nat)
    (description : String) : Except ApiError ReviewRow × DB :=
  match db.reviews.find? (fun r => r.id == reviewId) with
  | none => (Except.error (ApiError.notFound "Review not found."), db)
  | some r =>
      match validate_review_fields rating description with
      | Except.error e => (Except.error e, db)
      | Except.ok _ =>
          let r' := { r with rating := rating, description := description }
          if r'.business_user == r'.reviewer then
            (Except.error (ApiError.validation "Users cannot review themselves."), db)
          else
            (Except.ok r',
              { db with reviews :=
                  replaceFirst (fun x => x.id == reviewId) (fun _ => r') db.reviews })

/-- `ReviewDeleteView`/`ReviewDetailView` DELETE: remove the row. -/
def review_delete_view (db : DB) (reviewId : Nat) : DB :=
  { db with reviews := db.reviews.filter (fun r => ¬ r.id == reviewId) }

/-! ## Aggregate statistics (`base_app/api/views.py`,
`review_app/api/views.py`) -/

/-- Round to the nearest integer, ties to even — the behaviour of
Python's built-in `round` on exact values (binary floating-point
representation error is abstracted away; the operands here are averages
of small integers). -/
def pyRound (q : ℚ) : ℤ :=
  if q - ⌊q⌋ < 1 / 2 then ⌊q⌋
  else if 1 / 2 < q - ⌊q⌋ then ⌊q⌋ + 1
  else if Even ⌊q⌋ then ⌊q⌋ else ⌊q⌋ + 1

/-- Python `round(x, 1)`. -/
def round1 (q : ℚ) : ℚ := (pyRound (10 * q) : ℚ) / 10

/-- Python `round(x, 2)`. -/
def round2 (q : ℚ) : ℚ := (pyRound (100 * q) : ℚ) / 100

/-- Django `aggregate(Avg(...))`: `none` on an empty query set, else the
mean. -/
def avgAggregate (l : List Nat) : Option ℚ :=
  match l with
  | [] => none
  | _ => some ((l.sum : ℚ) / (l.length : ℚ))

/-- `base_app.api.views.get_review_count`. -/
def get_review_count (db : DB) : Nat := db.reviews.length

/-- `base_app.api.views.get_average_rating`: `round(average, 1)` when the
aggregate is not `None`, else `0.0`. -/
def get_average_rating (db : DB) : ℚ :=
  match avgAggregate (db.reviews.map (fun r => r.rating)) with
  | some a => round1 a
  | none => 0

/-- `base_app.api.views.get_business_profile_count`. -/
def get_business_profile_count (db : DB) : Nat :=
  (db.profiles.filter (fun p => p.type == "business")).length

/-- `base_app.api.views.get_offer_count`. -/
def get_offer_count (db : DB) : Nat := db.offers.length

/-- Response body of `/base-info`. -/
structure BaseInfo where
  review_count : Nat
  average_rating : ℚ
  business_profile_count : Nat
  offer_count : Nat
deriving DecidableEq, Repr

/-- `base_app.api.views.base_info_view` (open to anyone). -/
def base_info_view (db : DB) : BaseInfo :=
  { review_count := get_review_count db
    average_rating := get_average_rating db
    business_profile_count := get_business_profile_count db
    offer_count := get_offer_count db }

/-- Response body of `/business-users/{id}/review-stats`. -/
structure ReviewStats where
  business_user_id : Nat
  business_user_name : String
  average_rating : ℚ
  total_reviews : Nat
  positive_reviews : Nat
  neutral_reviews : Nat
  negative_reviews : Nat
  rating_distribution : List Nat
deriving DecidableEq, Repr

/-- `review_app.api.views.BusinessUserReviewStatsView.get`: 404 only when
no user has the given id; otherwise the statistics are computed from the
reviews table alone — the view never consults the target's profile, so
no role check happens.  `average_rating` is
`round(aggregate or 0, 2)`. -/
def business_user_review_stats (db : DB) (business_user_id : Nat) :
    Except ApiError ReviewStats :=
  match db.users.find? (fun u => u.id == business_user_id) with
  | none => Except.error (ApiError.notFound "Business user not found")
  | some u =>
      let reviews := db.reviews.filter (fun r => r.business_user == business_user_id)
      Except.ok
        { business_user_id := business_user_id
          business_user_name := u.username
          average_rating :=
            round2 ((avgAggregate (reviews.map (fun r => r.rating))).getD 0)
          total_reviews := reviews.length
          positive_reviews := (reviews.filter (fun r => 4 ≤ r.rating)).length
          neutral_reviews := (reviews.filter (fun r => r.rating == 3)).length
          negative_reviews := (reviews.filter (fun r => r.rating ≤ 2)).length
          rating_distribution :=
            (List.range 5).map
              (fun i => (reviews.filter (fun r => r.rating == i + 1)).length) }

/-! ## Invariants -/

/-- Number of detail rows of offer `oid` carrying tier `t`. -/
def tierCount (rows : List OfferDetailRow) (oid : Nat) (t : String) : Nat :=
  rows.countP (fun r => r.offer == oid && r.offer_type == t)

/-- The creation invariant of C8: offer `oid` has exactly one detail row
per tier, and no detail row with a tier outside the three choices. -/
def exactlyOnePerTier (rows : List OfferDetailRow) (oid : Nat) : Prop :=
  (∀ t ∈ offerTypeChoices, tierCount rows oid t = 1) ∧
  ∀ r ∈ rows, r.offer = oid → r.offer_type ∈ offerTypeChoices

/-- The review invariant of C7: no self-reviews, and at most one review
per (business_user, reviewer) pair. -/
def reviewInvariant (reviews : List ReviewRow) : Prop :=
  (∀ r ∈ reviews, r.reviewer ≠ r.business_user) ∧
  List.Pairwise
    (fun a b => ¬ (a.business_user = b.business_user ∧ a.reviewer = b.reviewer))
    reviews

/-! ## Concrete data used to instantiate the theorems -/

/-- A business user (id 1) with a published offer, and a customer (id 2). -/
def exDB : DB :=
  { users :=
      [ { id := 1, username := "bea", email := "bea@example.com", password := "pw-bea-123" }
      , { id := 2, username := "carl", email := "carl@example.com", password := "pw-carl-123" } ]
    profiles := [ { user := 1, type := "business" }, { user := 2, type := "customer" } ]
    offers := [ { id := 7, user := 1, title := "Logo design", description := "Logos" } ]
    offerDetails :=
      [ { id := 10, offer := 7, title := "Basic logo", revisions := 2
          delivery_time_in_days := 3, price := 10, features := ["1 concept"]
          offer_type := "basic" }
      , { id := 11, offer := 7, title := "Standard logo", revisions := 5
          delivery_time_in_days := 5, price := 20, features := ["3 concepts"]
          offer_type := "standard" }
      , { id := 12, offer := 7, title := "Premium logo", revisions := 10
          delivery_time_in_days := 7, price := 30, features := ["5 concepts"]
          offer_type := "premium" } ]
    orders :=
      [ { id := 20, customer_user := 2, business_user := 1, title := "Basic logo"
          revisions := 2, delivery_time_in_days := 3, price := 10
          features := ["1 concept"], offer_type := "basic", status := "in_progress" } ]
    reviews :=
      [ { id := 30, business_user := 1, reviewer := 2, rating := 5
          description := "Great work, thanks!" } ] }

/-- Occurrences of `t` in a list of strings (spec-side notion used to
state "each tier exactly once"). -/
def countStr (t : String) : List String → Nat
  | [] => 0
  | x :: xs => (if x = t then 1 else 0) + countStr t xs

/-- The empty database. -/
def emptyDB : DB :=
  { users := []
    profiles := []
    offers := []
    offerDetails := []
    orders := []
    reviews := [] }

/-- The offer row of `exDB`. -/
def exOffer : OfferRow :=
  { id := 7, user := 1, title := "Logo design", description := "Logos" }

/-- The order row of `exDB`. -/
def exOrder : OrderRow :=
  { id := 20, customer_user := 2, business_user := 1, title := "Basic logo"
    revisions := 2, delivery_time_in_days := 3, price := 10
    features := ["1 concept"], offer_type := "basic", status := "in_progress" }

/-- The review row of `exDB` (customer 2 reviewing business user 1). -/
def exReview : ReviewRow :=
  { id := 30, business_user := 1, reviewer := 2, rating := 5
    description := "Great work, thanks!" }

/-- A registration request whose two passwords differ. -/
def regMismatch : RegistrationRequest :=
  { username := "dora", email := "dora@example.com", password := "p1234567"
    repeated_password := "different", type := "customer" }

/-- A registration request reusing `exDB`'s existing email with a fresh
username and matching passwords. -/
def regDupEmail : RegistrationRequest :=
  { username := "dora", email := "bea@example.com", password := "p1234567"
    repeated_password := "p1234567", type := "customer" }

/-- A three-tier details payload (one entry per tier). -/
def exDetails : List DetailData :=
  [ { title := "B", revisions := 1, delivery_time_in_days := 2, price := 10
      features := ["f1"], offer_type := "basic" }
  , { title := "S", revisions := 2, delivery_time_in_days := 4, price := 20
      features := ["f2"], offer_type := "standard" }
  , { title := "P", revisions := 3, delivery_time_in_days := 6, price := 30
      features := ["f3"], offer_type := "premium" } ]

/-! # Theorems

Helper lemmas first, then one theorem (plus witness) per claim. -/

theorem pyMin_le_self {α : Type} [LinearOrder α] (x : α) (l : List α) :
    pyMin x l ≤ x := by
  induction l generalizing x with
  | nil => exact le_refl x
  | cons z zs ih =>
      calc pyMin (min x z) zs ≤ min x z := ih (min x z)
        _ ≤ x := min_le_left x z

theorem pyMin_le_mem {α : Type} [LinearOrder α] (x : α) (l : List α) :
    ∀ y ∈ l, pyMin x l ≤ y := by
  induction l generalizing x with
  | nil => intro y hy; cases hy
  | cons z zs ih =>
      intro y hy
      rcases List.mem_cons.mp hy with rfl | hz
      · calc pyMin (min x y) zs ≤ min x y := pyMin_le_self (min x y) zs
          _ ≤ y := min_le_right x y
      · exact ih (min x z) y hz

theorem pyMin_mem {α : Type} [LinearOrder α] (x : α) (l : List α) :
    pyMin x l = x ∨ pyMin x l ∈ l := by
  induction l generalizing x with
  | nil => exact Or.inl rfl
  | cons z zs ih =>
      rcases ih (min x z) with h | h
      · rcases min_cases x z with ⟨he, _⟩ | ⟨he, _⟩
        · exact Or.inl (h.trans he)
        · exact Or.inr (List.mem_cons.mpr (Or.inl (h.trans he)))
      · exact Or.inr (List.mem_cons.mpr (Or.inr h))

/-- C6: `min_price` is the minimum of the offer's details' prices and
`min_delivery_time` the minimum of their delivery times (a lower bound
that is attained); with no details both derived fields are 0. -/
theorem offer_min_fields_are_minima (db : DB) (o : OfferRow)
    (dets : List OfferDetailRow)
    (hdets : db.offerDetails.filter (fun d => d.offer == o.id) = dets) :
    (dets = [] → Offer.min_price db o = 0 ∧ Offer.min_delivery_time db o = 0) ∧
    (dets ≠ [] →
       (∀ d ∈ dets, Offer.min_price db o ≤ d.price ∧
          Offer.min_delivery_time db o ≤ d.delivery_time_in_days) ∧
       (∃ d ∈ dets, Offer.min_price db o = d.price) ∧
       (∃ d ∈ dets, Offer.min_delivery_time db o = d.delivery_time_in_days)) := by
  cases dets with
  | nil =>
      refine ⟨fun _ => ⟨?_, ?_⟩, fun h => absurd rfl h⟩
      · simp [Offer.min_price, hdets]
      · simp [Offer.min_delivery_time, hdets]
  | cons d ds =>
      have hp : Offer.min_price db o = pyMin d.price (ds.map (fun x => x.price)) := by
        simp [Offer.min_price, hdets]
      have ht : Offer.min_delivery_time db o =
          pyMin d.delivery_time_in_days (ds.map (fun x => x.delivery_time_in_days)) := by
        simp [Offer.min_delivery_time, hdets]
      refine ⟨fun h => absurd h (List.cons_ne_nil d ds), fun _ => ⟨?_, ?_, ?_⟩⟩
      · intro x hx
        constructor
        · rw [hp]
          rcases List.mem_cons.mp hx with rfl | hxs
          · exact pyMin_le_self _ _
          · exact pyMin_le_mem _ _ _ (List.mem_map_of_mem _ hxs)
        · rw [ht]
          rcases List.mem_cons.mp hx with rfl | hxs
          · exact pyMin_le_self _ _
          · exact pyMin_le_mem _ _ _ (List.mem_map_of_mem _ hxs)
      · rcases pyMin_mem d.price (ds.map (fun x => x.price)) with h | h
        · exact ⟨d, List.mem_cons_self d ds, hp.trans h⟩
        · rcases List.mem_map.mp h with ⟨x, hx, hxe⟩
          exact ⟨x, List.mem_cons_of_mem d hx, hp.trans hxe.symm⟩
      · rcases pyMin_mem d.delivery_time_in_days
            (ds.map (fun x => x.delivery_time_in_days)) with h | h
        · exact ⟨d, List.mem_cons_self d ds, ht.trans h⟩
        · rcases List.mem_map.mp h with ⟨x, hx, hxe⟩
          exact ⟨x, List.mem_cons_of_mem d hx, ht.trans hxe.symm⟩

/-- Witness for C6: on the concrete database (details priced 10/20/30),
the minimum is attained and `min_price = 10`, `min_delivery_time = 3`. -/
theorem offer_min_fields_are_minima_witness :
    (∃ d ∈ exDB.offerDetails.filter (fun d => d.offer == exOffer.id),
       Offer.min_price exDB exOffer = d.price) ∧
    Offer.min_price exDB exOffer = 10 ∧
    Offer.min_delivery_time exDB exOffer = 3 := by
  have h := offer_min_fields_are_minima exDB exOffer
    (exDB.offerDetails.filter (fun d => d.offer == exOffer.id)) rfl
  exact ⟨(h.2 (by decide)).2.1, by decide, by decide⟩

/-- C1: for an authenticated customer-role caller, creating an order from
an existing OfferDetail copies title/revisions/delivery time/price/
features/offer_type exactly, sets status `in_progress`, business_user =
the owning offer's user, customer_user = the caller, and appends exactly
that order; a missing detail id yields NotFound and leaves the database
unchanged. -/
theorem order_create_copies_detail (db : DB) (caller did : Nat)
    (hperm : IsCustomerUser db caller = true) :
    (db.offerDetails.find? (fun d => d.id == did) = none →
       order_create_view db caller did =
         (Except.error (ApiError.notFound "Offer detail not found."), db)) ∧
    (∀ d off,
       db.offerDetails.find? (fun x => x.id == did) = some d →
       db.offers.find? (fun o => o.id == d.offer) = some off →
       ∃ ord,
         order_create_view db caller did =
           (Except.ok ord, { db with orders := db.orders ++ [ord] }) ∧
         ord.title = d.title ∧ ord.revisions = d.revisions ∧
         ord.delivery_time_in_days = d.delivery_time_in_days ∧
         ord.price = d.price ∧ ord.features = d.features ∧
         ord.offer_type = d.offer_type ∧ ord.status = "in_progress" ∧
         ord.business_user = off.user ∧ ord.customer_user = caller) := by
  constructor
  · intro hnone
    simp [order_create_view, hperm, validate_offer_detail_id, hnone]
  · intro d off hd hoff
    refine ⟨{ id := nextId (db.orders.map (fun o => o.id))
              customer_user := caller
              business_user := off.user
              title := d.title
              revisions := d.revisions
              delivery_time_in_days := d.delivery_time_in_days
              price := d.price
              features := d.features
              offer_type := d.offer_type
              status := "in_progress" },
            ?_, rfl, rfl, rfl, rfl, rfl, rfl, rfl, rfl, rfl⟩
    simp [order_create_view, hperm, validate_offer_detail_id, hd,
      create_order_from_detail, hoff]

/-- Witness for C1: customer 2 of `exDB` orders detail 11 and gets an
`in_progress` snapshot of the standard tier. -/
theorem order_create_copies_detail_witness :
    IsCustomerUser exDB 2 = true ∧
    ∃ ord,
      order_create_view exDB 2 11 =
        (Except.ok ord, { exDB with orders := exDB.orders ++ [ord] }) ∧
      ord.title = "Standard logo" ∧ ord.status = "in_progress" := by
  obtain ⟨ord, heq, htitle, _, _, _, _, _, hstat, _, _⟩ :=
    (order_create_copies_detail exDB 2 11 (by decide)).2
      { id := 11, offer := 7, title := "Standard logo", revisions := 5
        delivery_time_in_days := 5, price := 20, features := ["3 concepts"]
        offer_type := "standard" }
      { id := 7, user := 1, title := "Logo design", description := "Logos" }
      (by decide) (by decide)
  exact ⟨by decide, ord, heq, htitle, hstat⟩

/-- C3: a status PATCH on an order succeeds only for the order's
business_user (any other authenticated caller, the customer included,
gets a permission error), the accepted value lies in
`STATUS_CHOICES`, and the update changes no field besides `status`. -/
theorem order_status_update_business_only (db : DB) (caller oid : Nat)
    (value : String) (o : OrderRow)
    (hfind : db.orders.find? (fun r => r.id == oid) = some o) :
    (caller ≠ o.business_user →
       order_status_update_view db caller oid value =
         (Except.error ApiError.permissionDenied, db)) ∧
    (∀ o', (order_status_update_view db caller oid value).1 = Except.ok o' →
       caller = o.business_user ∧
       value ∈ statusChoices ∧
       o'.status = value ∧
       o'.id = o.id ∧ o'.customer_user = o.customer_user ∧
       o'.business_user = o.business_user ∧ o'.title = o.title ∧
       o'.revisions = o.revisions ∧
       o'.delivery_time_in_days = o.delivery_time_in_days ∧
       o'.price = o.price ∧ o'.features = o.features ∧
       o'.offer_type = o.offer_type) := by
  constructor
  · intro hne
    have hne' : (o.business_user == caller) = false := by
      simp only [beq_eq_false_iff_ne, ne_eq]
      exact fun h => hne h.symm
    have hb : IsBusinessUserForOrder db caller o = false := by
      cases hpt : profileType db caller with
      | none => simp [IsBusinessUserForOrder, hpt]
      | some t => simp [IsBusinessUserForOrder, hpt, hne']
    simp [order_status_update_view, hfind, hb]
  · intro o' hok
    simp only [order_status_update_view, hfind] at hok
    by_cases hb : IsBusinessUserForOrder db caller o = true
    · have hcaller : caller = o.business_user := by
        cases hpt : profileType db caller with
        | none => simp [IsBusinessUserForOrder, hpt] at hb
        | some t =>
            simp only [IsBusinessUserForOrder, hpt, Bool.and_eq_true,
              beq_iff_eq] at hb
            exact hb.2.symm
      rw [if_pos hb] at hok
      unfold validate_status at hok
      by_cases hv : statusChoices.contains value = true
      · rw [if_pos hv] at hok
        have ho' : { o with status := value } = o' := Except.ok.inj hok
        subst ho'
        exact ⟨hcaller, List.elem_iff.mp hv, rfl, rfl, rfl, rfl, rfl, rfl,
          rfl, rfl, rfl, rfl⟩
      · rw [if_neg hv] at hok
        simp at hok
    · rw [if_neg hb] at hok
      simp at hok

theorem countStr_pos_iff_mem (t : String) (l : List String) :
    0 < countStr t l ↔ t ∈ l := by
  induction l with
  | nil => simp [countStr]
  | cons x xs ih =>
      by_cases hx : x = t
      · subst hx
        simp [countStr]
      · simp [countStr, hx, ih, Ne.symm hx]

theorem countStr_sum_le (a b c : String) (hab : a ≠ b) (hac : a ≠ c)
    (hbc : b ≠ c) (l : List String) :
    countStr a l + countStr b l + countStr c l ≤ l.length := by
  induction l with
  | nil => simp [countStr]
  | cons x xs ih =>
      simp only [countStr, List.length_cons]
      by_cases hxa : x = a
      · have hxb : ¬ x = b := fun h => hab (hxa.symm.trans h)
        have hxc : ¬ x = c := fun h => hac (hxa.symm.trans h)
        rw [if_pos hxa, if_neg hxb, if_neg hxc]; omega
      · by_cases hxb : x = b
        · have hxc : ¬ x = c := fun h => hbc (hxb.symm.trans h)
          rw [if_neg hxa, if_pos hxb, if_neg hxc]; omega
        · by_cases hxc : x = c
          · rw [if_neg hxa, if_neg hxb, if_pos hxc]; omega
          · rw [if_neg hxa, if_neg hxb, if_neg hxc]; omega

theorem countStr_sum_eq_iff (a b c : String) (hab : a ≠ b) (hac : a ≠ c)
    (hbc : b ≠ c) (l : List String) :
    countStr a l + countStr b l + countStr c l = l.length ↔
      ∀ x ∈ l, x = a ∨ x = b ∨ x = c := by
  induction l with
  | nil => simp [countStr]
  | cons x xs ih =>
      simp only [countStr, List.length_cons, List.mem_cons, forall_eq_or_imp]
      constructor
      · intro h
        by_cases hxa : x = a
        · have hxb : ¬ x = b := fun he => hab (hxa.symm.trans he)
          have hxc : ¬ x = c := fun he => hac (hxa.symm.trans he)
          rw [if_pos hxa, if_neg hxb, if_neg hxc] at h
          exact ⟨Or.inl hxa, ih.mp (by omega)⟩
        · by_cases hxb : x = b
          · have hxc : ¬ x = c := fun he => hbc (hxb.symm.trans he)
            rw [if_neg hxa, if_pos hxb, if_neg hxc] at h
            exact ⟨Or.inr (Or.inl hxb), ih.mp (by omega)⟩
          · by_cases hxc : x = c
            · rw [if_neg hxa, if_neg hxb, if_pos hxc] at h
              exact ⟨Or.inr (Or.inr hxc), ih.mp (by omega)⟩
            · rw [if_neg hxa, if_neg hxb, if_neg hxc] at h
              have := countStr_sum_le a b c hab hac hbc xs
              omega
      · rintro ⟨hx, hxs⟩
        have hxs' := ih.mpr hxs
        rcases hx with hxa | hxb | hxc
        · have hxb : ¬ x = b := fun he => hab (hxa.symm.trans he)
          have hxc : ¬ x = c := fun he => hac (hxa.symm.trans he)
          rw [if_pos hxa, if_neg hxb, if_neg hxc]; omega
        · have hxa : ¬ x = a := fun he => hab (he.symm.trans hxb)
          have hxc : ¬ x = c := fun he => hbc (hxb.symm.trans he)
          rw [if_neg hxa, if_pos hxb, if_neg hxc]; omega
        · have hxa : ¬ x = a := fun he => hac (he.symm.trans hxc)
          have hxb : ¬ x = b := fun he => hbc (he.symm.trans hxc)
          rw [if_neg hxa, if_neg hxb, if_pos hxc]; omega

/-- The creation check of `validate_offer_types` (`set(types) ==
set(['basic','standard','premium'])` on a 3-element list) holds exactly
when each tier occurs exactly once. -/
theorem sameSet_three_tiers_iff (l : List String) (hlen : l.length = 3) :
    sameSet l offerTypeChoices = true ↔
      countStr "basic" l = 1 ∧ countStr "standard" l = 1 ∧
      countStr "premium" l = 1 := by
  have hab : "basic" ≠ "standard" := by decide
  have hac : "basic" ≠ "premium" := by decide
  have hbc : "standard" ≠ "premium" := by decide
  have hss : sameSet l offerTypeChoices = true ↔
      (∀ x ∈ l, x = "basic" ∨ x = "standard" ∨ x = "premium") ∧
      ("basic" ∈ l ∧ "standard" ∈ l ∧ "premium" ∈ l) := by
    simp [sameSet, offerTypeChoices, List.all_eq_true, List.elem_iff]
  rw [hss]
  constructor
  · rintro ⟨hall, hb, hs, hp⟩
    have hsum := (countStr_sum_eq_iff _ _ _ hab hac hbc l).mpr hall
    have h1 := (countStr_pos_iff_mem "basic" l).mpr hb
    have h2 := (countStr_pos_iff_mem "standard" l).mpr hs
    have h3 := (countStr_pos_iff_mem "premium" l).mpr hp
    omega
  · rintro ⟨h1, h2, h3⟩
    have hsum : countStr "basic" l + countStr "standard" l +
        countStr "premium" l = l.length := by omega
    refine ⟨(countStr_sum_eq_iff _ _ _ hab hac hbc l).mp hsum, ?_, ?_, ?_⟩
    · exact (countStr_pos_iff_mem "basic" l).mp (by omega)
    · exact (countStr_pos_iff_mem "standard" l).mp (by omega)
    · exact (countStr_pos_iff_mem "premium" l).mp (by omega)

/-- C2: for an authorized business caller, offer creation succeeds iff
the submitted details list has exactly 3 entries covering the tiers
basic, standard and premium exactly once; every other details list fails
with a ValidationError, and then neither an Offer row nor an OfferDetail
row is persisted (the database is returned unchanged). -/
theorem offer_create_requires_three_tiers (db : DB) (caller : Nat)
    (dat : OfferData) (hperm : IsBusinessUser db caller = true) :
    ((∃ off, (offer_create_view db caller dat).1 = Except.ok off) ↔
       (dat.details.length = 3 ∧
        countStr "basic" (dat.details.map (fun d => d.offer_type)) = 1 ∧
        countStr "standard" (dat.details.map (fun d => d.offer_type)) = 1 ∧
        countStr "premium" (dat.details.map (fun d => d.offer_type)) = 1)) ∧
    (∀ e, (offer_create_view db caller dat).1 = Except.error e →
       (∃ msg, e = ApiError.validation msg) ∧
       (offer_create_view db caller dat).2 = db) := by
  have hmap : (dat.details.map (fun d => d.offer_type)).length =
      dat.details.length := List.length_map _ _
  by_cases hlen : dat.details.length = 3
  · by_cases hss :
        sameSet (dat.details.map (fun d => d.offer_type)) offerTypeChoices = true
    · have hval : validate_creation_details dat.details = Except.ok () := by
        unfold validate_creation_details validate_offer_types
        rw [if_neg (by omega : ¬ dat.details.length ≠ 3), if_pos hss]
      have hview : (offer_create_view db caller dat).1 =
          Except.ok { id := nextId (db.offers.map (fun o => o.id))
                      user := caller
                      title := dat.title
                      description := dat.description } := by
        simp [offer_create_view, hperm, hval]
      constructor
      · refine iff_of_true ⟨_, hview⟩ ⟨hlen, ?_⟩
        exact (sameSet_three_tiers_iff _ (hmap.trans hlen)).mp hss
      · intro e he
        rw [hview] at he
        cases he
    · have hval : validate_creation_details dat.details =
          Except.error (ApiError.validation
            "Offer must contain basic, standard, and premium details.") := by
        unfold validate_creation_details validate_offer_types
        rw [if_neg (by omega : ¬ dat.details.length ≠ 3), if_neg hss]
      have hview : offer_create_view db caller dat =
          (Except.error (ApiError.validation
            "Offer must contain basic, standard, and premium details."), db) := by
        simp [offer_create_view, hperm, hval]
      constructor
      · refine iff_of_false ?_ ?_
        · rintro ⟨off, hoff⟩
          rw [hview] at hoff
          cases hoff
        · rintro ⟨_, hcnt⟩
          exact hss ((sameSet_three_tiers_iff _ (hmap.trans hlen)).mpr hcnt)
      · intro e he
        rw [hview] at he
        cases he
        exact ⟨⟨_, rfl⟩, by rw [hview]⟩
  · have hval : validate_creation_details dat.details =
        Except.error (ApiError.validation
          "An offer must contain exactly 3 details.") := by
      unfold validate_creation_details
      rw [if_pos hlen]
    have hview : offer_create_view db caller dat =
        (Except.error (ApiError.validation
          "An offer must contain exactly 3 details."), db) := by
      simp [offer_create_view, hperm, hval]
    constructor
    · refine iff_of_false ?_ ?_
      · rintro ⟨off, hoff⟩
        rw [hview] at hoff
        cases hoff
      · rintro ⟨h3, _⟩
        exact hlen h3
    · intro e he
      rw [hview] at he
      cases he
      exact ⟨⟨_, rfl⟩, by rw [hview]⟩

/-- Witness for C2: business user 1 of `exDB` creates an offer with one
detail per tier and succeeds. -/
theorem offer_create_requires_three_tiers_witness :
    IsBusinessUser exDB 1 = true ∧
    ∃ off, (offer_create_view exDB 1
        { title := "New offer", description := "d", details := exDetails }).1 =
      Except.ok off := by
  refine ⟨by decide, ?_⟩
  exact ((offer_create_requires_three_tiers exDB 1
    { title := "New offer", description := "d", details := exDetails }
    (by decide)).1).mpr ⟨by decide, by decide, by decide, by decide⟩

/-- C4 (code bug): on `exDB`, the failure path is as specified —
wrong credentials give `ValidationError('Invalid credentials.')` — but
correct credentials make `UserLoginSerializer.validate` evaluate the
bare final expression `attrs['user_id']`, raising `KeyError('user_id')`:
the promised token/user_id/email response is never produced. -/
theorem login_success_raises_keyerror :
    authenticate exDB "bea" "pw-bea-123" =
      some { id := 1, username := "bea", email := "bea@example.com"
             password := "pw-bea-123" } ∧
    login_validate exDB "bea" "pw-bea-123" "jwt-token" =
      Except.error (ApiError.keyError "user_id") ∧
    login_validate exDB "bea" "wrong-password" "jwt-token" =
      Except.error (ApiError.validation "Invalid credentials.") := by
  exact ⟨by decide, rfl, rfl⟩

/-- C5 counterexample: `exDB` already stores `bea@example.com`, yet a
registration with a fresh username, that same email and matching
passwords is accepted and a new User row is written — the email-
uniqueness clause of the claim does not hold in the code (the stock
Django `User.email` column is not unique and the serializer adds no
check). -/
theorem registration_duplicate_email_accepted :
    (exDB.users.map (fun u => u.email)).contains "bea@example.com" = true ∧
    (registration_view exDB regDupEmail).1 =
      Except.ok { id := 3, username := "dora", email := "bea@example.com"
                  password := "p1234567" } ∧
    (registration_view exDB regDupEmail).2.users.length =
      exDB.users.length + 1 := by
  exact ⟨by decide, rfl, by decide⟩

/-- C5 (amended): registration fails with a ValidationError whenever the
two passwords differ, the username is already taken, or the role is not
customer/business — and on every failure no User (or Profile) row is
written; email uniqueness is not checked. -/
theorem registration_rejects_invalid (db : DB) (req : RegistrationRequest)
    (h : req.password ≠ req.repeated_password ∨
         db.users.any (fun u => u.username == req.username) = true ∨
         ¬ ["customer", "business"].contains req.type = true) :
    (∃ msg, (registration_view db req).1 = Except.error (ApiError.validation msg)) ∧
    (registration_view db req).2 = db := by
  unfold registration_view
  by_cases h1 : db.users.any (fun u => u.username == req.username) = true
  · rw [if_pos h1]
    exact ⟨⟨_, rfl⟩, rfl⟩
  · rw [if_neg h1]
    by_cases h2 : ["customer", "business"].contains req.type = true
    · rw [if_neg (not_not_intro h2)]
      by_cases h3 : req.password = req.repeated_password
      · rcases h with hp | hu | ht
        · exact absurd h3 hp
        · exact absurd hu h1
        · exact absurd h2 ht
      · rw [if_pos h3]
        exact ⟨⟨_, rfl⟩, rfl⟩
    · rw [if_pos h2]
      exact ⟨⟨_, rfl⟩, rfl⟩

/-- Witness for C5 (amended): the password-mismatch request on `exDB`
fails with a ValidationError and writes nothing. -/
theorem registration_rejects_invalid_witness :
    (∃ msg, (registration_view exDB regMismatch).1 =
       Except.error (ApiError.validation msg)) ∧
    (registration_view exDB regMismatch).2 = exDB := by
  exact registration_rejects_invalid exDB regMismatch (Or.inl (by decide))

theorem pyRound_dist_le_half (q : ℚ) : |(pyRound q : ℚ) - q| ≤ 1 / 2 := by
  have h1 : (⌊q⌋ : ℚ) ≤ q := Int.floor_le q
  have h2 : q < ⌊q⌋ + 1 := Int.lt_floor_add_one q
  unfold pyRound
  by_cases hlt : q - ⌊q⌋ < 1 / 2
  · rw [if_pos hlt, abs_le]
    constructor <;> linarith
  · rw [if_neg hlt]
    by_cases hgt : 1 / 2 < q - ⌊q⌋
    · rw [if_pos hgt]
      push_cast
      rw [abs_le]
      constructor <;> linarith
    · rw [if_neg hgt]
      have heq : q - ⌊q⌋ = 1 / 2 := le_antisymm (not_lt.mp hgt) (not_lt.mp hlt)
      by_cases he : Even ⌊q⌋
      · rw [if_pos he, abs_le]
        constructor <;> linarith
      · rw [if_neg he]
        push_cast
        rw [abs_le]
        constructor <;> linarith

theorem round1_dist_le (q : ℚ) : |round1 q - q| ≤ 1 / 20 := by
  have h := pyRound_dist_le_half (10 * q)
  have h10 : round1 q - q = ((pyRound (10 * q) : ℚ) - 10 * q) / 10 := by
    unfold round1
    ring
  rw [h10, abs_div]
  rw [show |(10 : ℚ)| = 10 by norm_num]
  linarith

/-- C9: `/base-info` returns the total review count, the business-profile
count, the offer count, and an average rating that is 0.0 when there are
no reviews (not an error) and otherwise the mean of all ratings rounded
to one decimal place (an integer number of tenths within 1/20 of the
true mean). -/
theorem base_info_average_spec (db : DB) :
    (base_info_view db).review_count = db.reviews.length ∧
    (base_info_view db).business_profile_count =
      (db.profiles.filter (fun p => p.type == "business")).length ∧
    (base_info_view db).offer_count = db.offers.length ∧
    (db.reviews = [] → (base_info_view db).average_rating = 0) ∧
    (db.reviews ≠ [] →
       (base_info_view db).average_rating =
         round1 ((((db.reviews.map (fun r => r.rating)).sum : ℕ) : ℚ) /
           (db.reviews.length : ℚ)) ∧
       (∃ k : ℤ, (base_info_view db).average_rating = (k : ℚ) / 10) ∧
       |(base_info_view db).average_rating -
           (((db.reviews.map (fun r => r.rating)).sum : ℕ) : ℚ) /
             (db.reviews.length : ℚ)| ≤ 1 / 20) := by
  refine ⟨rfl, rfl, rfl, ?_, ?_⟩
  · intro h
    simp [base_info_view, get_average_rating, avgAggregate, h]
  · intro h
    obtain ⟨r, rs, hrev⟩ : ∃ r rs, db.reviews = r :: rs := by
      cases hr : db.reviews with
      | nil => exact absurd hr h
      | cons r rs => exact ⟨r, rs, rfl⟩
    have havg0 : (base_info_view db).average_rating =
        round1 ((((db.reviews.map (fun x => x.rating)).sum : ℕ) : ℚ) /
          ((db.reviews.map (fun x => x.rating)).length : ℚ)) := by
      show get_average_rating db = _
      unfold get_average_rating avgAggregate
      rw [hrev, List.map_cons]
    have havg : (base_info_view db).average_rating =
        round1 ((((db.reviews.map (fun x => x.rating)).sum : ℕ) : ℚ) /
          (db.reviews.length : ℚ)) := by
      rw [havg0, List.length_map]
    refine ⟨havg, ⟨pyRound (10 * ((((db.reviews.map (fun x => x.rating)).sum : ℕ) : ℚ) /
      (db.reviews.length : ℚ))), by rw [havg]; rfl⟩, ?_⟩
    rw [havg]
    exact round1_dist_le _

/-- Witness for C9: `exDB` has one review, its average is an integer
number of tenths, and an empty database reports `average_rating = 0`. -/
theorem base_info_average_spec_witness :
    (base_info_view exDB).review_count = 1 ∧
    (∃ k : ℤ, (base_info_view exDB).average_rating = (k : ℚ) / 10) ∧
    (base_info_view emptyDB).average_rating = 0 := by
  have h := (base_info_average_spec exDB).2.2.2.2 (by decide)
  have h0 := (base_info_average_spec emptyDB).2.2.2.1 rfl
  exact ⟨rfl, h.2.1, h0⟩

/-- C10: the per-business review-stats endpoint 404s only for an id no
user carries; for every stored user — no matter what the profiles table
says about their role, which the view never reads — it returns the
computed statistics. -/
theorem review_stats_no_role_check (db : DB) (uid : Nat) :
    (db.users.find? (fun u => u.id == uid) = none →
       business_user_review_stats db uid =
         Except.error (ApiError.notFound "Business user not found")) ∧
    (∀ u, db.users.find? (fun x => x.id == uid) = some u →
       business_user_review_stats db uid = Except.ok
         { business_user_id := uid
           business_user_name := u.username
           average_rating := round2 ((avgAggregate
             ((db.reviews.filter (fun r => r.business_user == uid)).map
               (fun r => r.rating))).getD 0)
           total_reviews :=
             (db.reviews.filter (fun r => r.business_user == uid)).length
           positive_reviews :=
             ((db.reviews.filter (fun r => r.business_user == uid)).filter
               (fun r => 4 ≤ r.rating)).length
           neutral_reviews :=
             ((db.reviews.filter (fun r => r.business_user == uid)).filter
               (fun r => r.rating == 3)).length
           negative_reviews :=
             ((db.reviews.filter (fun r => r.business_user == uid)).filter
               (fun r => r.rating ≤ 2)).length
           rating_distribution :=
             (List.range 5).map (fun i =>
               ((db.reviews.filter (fun r => r.business_user == uid)).filter
                 (fun r => r.rating == i + 1)).length) }) ∧
    (∀ ps, business_user_review_stats { db with profiles := ps } uid =
       business_user_review_stats db uid) := by
  refine ⟨?_, ?_, fun ps => rfl⟩
  · intro h
    simp [business_user_review_stats, h]
  · intro u hu
    simp [business_user_review_stats, hu]

/-- Witness for C10: user 2 of `exDB` has a customer profile, yet the
stats endpoint answers 200 for id 2; the unused id 99 gives 404. -/
theorem review_stats_no_role_check_witness :
    profileType exDB 2 = some "customer" ∧
    (∃ s, business_user_review_stats exDB 2 = Except.ok s) ∧
    business_user_review_stats exDB 99 =
      Except.error (ApiError.notFound "Business user not found") := by
  refine ⟨by decide, ⟨_, (review_stats_no_role_check exDB 2).2.1
    { id := 2, username := "carl", email := "carl@example.com"
      password := "pw-carl-123" } rfl⟩,
    (review_stats_no_role_check exDB 99).1 rfl⟩

/-- Witness for C3: on `exDB`, the customer (user 2) PATCHing order 20
is denied with a permission error, while the business owner's value
`completed` is an accepted status. -/
theorem order_status_update_business_only_witness :
    (order_status_update_view exDB 2 20 "completed" =
       (Except.error ApiError.permissionDenied, exDB)) ∧
    "completed" ∈ statusChoices := by
  refine ⟨(order_status_update_business_only exDB 2 20 "completed" exOrder
    rfl).1 (by decide), ?_⟩
  exact (((order_status_update_business_only exDB 1 20 "completed" exOrder
    rfl).2) { exOrder with status := "completed" } rfl).2.1

theorem countP_replaceFirst {α : Type} (p q : α → Bool) (f : α → α)
    (h : ∀ x, p x = true → q (f x) = q x) (l : List α) :
    (replaceFirst p f l).countP q = l.countP q := by
  induction l with
  | nil => rfl
  | cons x xs ih =>
      by_cases hp : p x = true
      · simp only [replaceFirst, if_pos hp, List.countP_cons, h x hp]
      · simp only [replaceFirst, if_neg hp, List.countP_cons, ih]

theorem length_replaceFirst {α : Type} (p : α → Bool) (f : α → α)
    (l : List α) : (replaceFirst p f l).length = l.length := by
  induction l with
  | nil => rfl
  | cons x xs ih =>
      by_cases hp : p x = true
      · simp only [replaceFirst, if_pos hp, List.length_cons]
      · simp only [replaceFirst, if_neg hp, List.length_cons, ih]

theorem mem_replaceFirst {α : Type} (p : α → Bool) (f : α → α) (l : List α)
    (y : α) (hy : y ∈ replaceFirst p f l) :
    y ∈ l ∨ ∃ x, x ∈ l ∧ p x = true ∧ y = f x := by
  induction l with
  | nil => cases hy
  | cons x xs ih =>
      by_cases hp : p x = true
      · rw [show replaceFirst p f (x :: xs) = f x :: xs by
            simp [replaceFirst, hp]] at hy
        rcases List.mem_cons.mp hy with rfl | hmem
        · exact Or.inr ⟨x, List.mem_cons_self x xs, hp, rfl⟩
        · exact Or.inl (List.mem_cons_of_mem x hmem)
      · rw [show replaceFirst p f (x :: xs) = x :: replaceFirst p f xs by
            simp [replaceFirst, hp]] at hy
        rcases List.mem_cons.mp hy with rfl | hmem
        · exact Or.inl (List.mem_cons_self _ xs)
        · rcases ih hmem with h | ⟨z, hz, hpz, he⟩
          · exact Or.inl (List.mem_cons_of_mem x h)
          · exact Or.inr ⟨z, List.mem_cons_of_mem x hz, hpz, he⟩

theorem get_or_create_detail_step (rows : List OfferDetailRow)
    (oid nid : Nat) (dd : DetailData)
    (hinv : exactlyOnePerTier rows oid)
    (hdd : dd.offer_type ∈ offerTypeChoices) :
    exactlyOnePerTier (get_or_create_detail rows oid dd nid).1 oid ∧
    (get_or_create_detail rows oid dd nid).1.countP
        (fun r => r.offer == oid) =
      rows.countP (fun r => r.offer == oid) ∧
    (get_or_create_detail rows oid dd nid).1.length = rows.length := by
  have h1 : tierCount rows oid dd.offer_type = 1 := hinv.1 _ hdd
  have hex : ∃ r ∈ rows,
      (r.offer == oid && r.offer_type == dd.offer_type) = true := by
    have : 0 < rows.countP (fun r => r.offer == oid && r.offer_type == dd.offer_type) := by
      unfold tierCount at h1
      omega
    exact List.countP_pos_iff.mp this
  have hany : rows.any
      (fun r => r.offer == oid && r.offer_type == dd.offer_type) = true :=
    List.any_eq_true.mpr hex
  have hres : (get_or_create_detail rows oid dd nid).1 = replaceFirst
      (fun r => r.offer == oid && r.offer_type == dd.offer_type)
      (fun r => update_detail_fields r dd) rows := by
    simp only [get_or_create_detail, if_pos hany]
  have hkey : ∀ x : OfferDetailRow,
      (x.offer == oid && x.offer_type == dd.offer_type) = true →
      (update_detail_fields x dd).offer = x.offer ∧
      (update_detail_fields x dd).offer_type = x.offer_type := by
    intro x hx
    have hx2 : x.offer_type = dd.offer_type :=
      beq_iff_eq.mp ((Bool.and_eq_true _ _).mp hx).2
    exact ⟨rfl, hx2.symm⟩
  rw [hres]
  refine ⟨⟨?_, ?_⟩, ?_, length_replaceFirst _ _ _⟩
  · intro t ht
    unfold tierCount
    rw [countP_replaceFirst]
    · exact hinv.1 t ht
    · intro x hx
      obtain ⟨ho, hot⟩ := hkey x hx
      rw [ho, hot]
  · intro r hr hro
    rcases mem_replaceFirst _ _ _ r hr with hmem | ⟨x, hx, hpx, he⟩
    · exact hinv.2 r hmem hro
    · subst he
      obtain ⟨_, hot⟩ := hkey x hpx
      rw [hot]
      exact hinv.2 x hx (by
        have := (hkey x hpx).1
        rw [← this]
        exact hro)
  · rw [countP_replaceFirst]
    intro x hx
    rw [(hkey x hx).1]

theorem update_offer_details_fold (oid : Nat) (dds : List DetailData) :
    ∀ rows nid, exactlyOnePerTier rows oid →
      (∀ dd ∈ dds, dd.offer_type ∈ offerTypeChoices) →
      exactlyOnePerTier (update_offer_details rows oid dds nid).1 oid ∧
      (update_offer_details rows oid dds nid).1.countP
          (fun r => r.offer == oid) =
        rows.countP (fun r => r.offer == oid) ∧
      (update_offer_details rows oid dds nid).1.length = rows.length := by
  induction dds with
  | nil => exact fun rows nid hinv _ => ⟨hinv, rfl, rfl⟩
  | cons d ds ih =>
      intro rows nid hinv hall
      have hstep := get_or_create_detail_step rows oid nid d hinv
        (hall d (List.mem_cons_self d ds))
      have hrec := ih (get_or_create_detail rows oid d nid).1
        (get_or_create_detail rows oid d nid).2 hstep.1
        (fun dd hdd => hall dd (List.mem_cons_of_mem d hdd))
      refine ⟨hrec.1, ?_, ?_⟩
      · rw [show update_offer_details rows oid (d :: ds) nid =
            update_offer_details (get_or_create_detail rows oid d nid).1 oid ds
              (get_or_create_detail rows oid d nid).2 from rfl]
        rw [hrec.2.1, hstep.2.1]
      · rw [show update_offer_details rows oid (d :: ds) nid =
            update_offer_details (get_or_create_detail rows oid d nid).1 oid ds
              (get_or_create_detail rows oid d nid).2 from rfl]
        rw [hrec.2.2, hstep.2.2]

/-- C8: an offer that satisfies the creation invariant (exactly one
detail per tier) keeps it across any update whose submitted details pass
`validate_offer_types_update`; the update can only modify rows in place —
the detail table's length and the offer's detail count never change, so
no fourth detail and no duplicate tier can appear. -/
theorem offer_update_preserves_tiers (rows : List OfferDetailRow)
    (oid nid : Nat) (dds : List DetailData)
    (hinv : exactlyOnePerTier rows oid)
    (hval : validate_offer_types_update dds = Except.ok ()) :
    exactlyOnePerTier (update_offer_details rows oid dds nid).1 oid ∧
    (update_offer_details rows oid dds nid).1.countP
        (fun r => r.offer == oid) =
      rows.countP (fun r => r.offer == oid) ∧
    (update_offer_details rows oid dds nid).1.length = rows.length := by
  have hall : ∀ dd ∈ dds, dd.offer_type ∈ offerTypeChoices := by
    unfold validate_offer_types_update at hval
    by_cases h : dds.all (fun d => offerTypeChoices.contains d.offer_type) = true
    · intro dd hdd
      exact List.elem_iff.mp (List.all_eq_true.mp h dd hdd)
    · rw [if_neg h] at hval
      cases hval
  exact update_offer_details_fold oid dds rows nid hinv hall

/-- Witness for C8: the three details of offer 7 in `exDB` satisfy the
invariant, and an update overwriting the premium tier keeps exactly one
detail per tier and the same number of rows. -/
theorem offer_update_preserves_tiers_witness :
    exactlyOnePerTier exDB.offerDetails 7 ∧
    (update_offer_details exDB.offerDetails 7
      [{ title := "P2", revisions := 9, delivery_time_in_days := 9, price := 99
         features := ["more"], offer_type := "premium" }] 13).1.length =
      exDB.offerDetails.length := by
  have hinv : exactlyOnePerTier exDB.offerDetails 7 := by
    constructor
    · decide
    · decide
  exact ⟨hinv, (offer_update_preserves_tiers exDB.offerDetails 7 13
    [{ title := "P2", revisions := 9, delivery_time_in_days := 9, price := 99
       features := ["more"], offer_type := "premium" }] hinv rfl).2.2⟩

theorem find?_eq_some_split {α : Type} (p : α → Bool) (l : List α) (r : α)
    (h : l.find? p = some r) :
    ∃ l1 l2, l = l1 ++ r :: l2 ∧ (∀ x ∈ l1, p x = false) ∧ p r = true ∧
      ∀ f, replaceFirst p f l = l1 ++ f r :: l2 := by
  induction l with
  | nil => cases h
  | cons x xs ih =>
      by_cases hp : p x = true
      · rw [List.find?_cons_of_pos _ hp] at h
        have hxr : x = r := Option.some.inj h
        subst hxr
        refine ⟨[], xs, rfl, fun y hy => absurd hy (List.not_mem_nil y), hp, ?_⟩
        intro f
        simp [replaceFirst, hp]
      · rw [List.find?_cons_of_neg _ hp] at h
        obtain ⟨l1, l2, heq, hl1, hpr, hrep⟩ := ih h
        refine ⟨x :: l1, l2, by rw [List.cons_append, heq], ?_, hpr, ?_⟩
        · intro y hy
          rcases List.mem_cons.mp hy with rfl | hm
          · exact Bool.eq_false_iff.mpr hp
          · exact hl1 y hm
        · intro f
          rw [List.cons_append, ← hrep f]
          simp [replaceFirst, hp]

theorem pairwise_pair_replace (l1 l2 : List ReviewRow) (r r' : ReviewRow)
    (hbu : r'.business_user = r.business_user)
    (hrev : r'.reviewer = r.reviewer)
    (h : List.Pairwise
      (fun a b => ¬ (a.business_user = b.business_user ∧ a.reviewer = b.reviewer))
      (l1 ++ r :: l2)) :
    List.Pairwise
      (fun a b => ¬ (a.business_user = b.business_user ∧ a.reviewer = b.reviewer))
      (l1 ++ r' :: l2) := by
  rw [List.pairwise_append] at h ⊢
  obtain ⟨h1, h2, h3⟩ := h
  rw [List.pairwise_cons] at h2 ⊢
  refine ⟨h1, ⟨?_, h2.2⟩, ?_⟩
  · intro b hb
    rw [hbu, hrev]
    exact h2.1 b hb
  · intro a ha b hb
    rcases List.mem_cons.mp hb with rfl | hb2
    · rw [hbu, hrev]
      exact h3 a ha r (List.mem_cons_self r l2)
    · exact h3 a ha b (List.mem_cons_of_mem r hb2)

/-- C7: on a database satisfying the review invariant — at most one
review per (business_user, reviewer) pair and no self-reviews — every
review operation (create, update, delete) preserves the invariant, and
a second review by the same reviewer for the same business user is
always rejected without changing the database. -/
theorem review_invariant_preserved (db : DB)
    (hinv : reviewInvariant db.reviews) :
    (∀ caller target rating desc,
       reviewInvariant (review_create_view db caller target rating desc).2.reviews) ∧
    (∀ caller target rating desc r, r ∈ db.reviews →
       r.business_user = target → r.reviewer = caller →
       (∃ e, (review_create_view db caller target rating desc).1 =
          Except.error e) ∧
       (review_create_view db caller target rating desc).2 = db) ∧
    (∀ reviewId rating desc,
       reviewInvariant (review_update_view db reviewId rating desc).2.reviews) ∧
    (∀ reviewId, reviewInvariant (review_delete_view db reviewId).reviews) := by
  refine ⟨?_, ?_, ?_, ?_⟩
  · -- create preserves the invariant
    intro caller target rating desc
    unfold review_create_view
    by_cases hperm : IsCustomerUser db caller = true
    · rw [if_pos hperm]
      cases hvb : validate_business_user db target with
      | error e => exact hinv
      | ok _ =>
          cases hvf : validate_review_fields rating desc with
          | error e => exact hinv
          | ok _ =>
              by_cases hdup : db.reviews.any
                  (fun r => r.business_user == target && r.reviewer == caller) = true
              · rw [if_pos hdup]; exact hinv
              · rw [if_neg hdup]
                by_cases hself : (target == caller) = true
                · rw [if_pos hself]; exact hinv
                · rw [if_neg hself]
                  have htc : target ≠ caller := by
                    intro he
                    exact hself (beq_iff_eq.mpr he)
                  constructor
                  · intro r hr
                    rcases List.mem_append.mp hr with hm | hm
                    · exact hinv.1 r hm
                    · rcases List.mem_singleton.mp hm with rfl
                      exact fun he => htc he.symm
                  · rw [List.pairwise_append]
                    refine ⟨hinv.2, List.pairwise_singleton _ _, ?_⟩
                    intro a ha b hb
                    rcases List.mem_singleton.mp hb with rfl
                    rintro ⟨hb1, hb2⟩
                    exact hself (by
                      have : db.reviews.any
                          (fun r => r.business_user == target && r.reviewer == caller) = true :=
                        List.any_eq_true.mpr ⟨a, ha, by
                          rw [Bool.and_eq_true, beq_iff_eq, beq_iff_eq]
                          exact ⟨hb1, hb2⟩⟩
                      exact absurd this hdup)
    · rw [if_neg hperm]; exact hinv
  · -- a second review by the same pair is rejected, database unchanged
    intro caller target rating desc r hr hbu hrev
    have hdup : db.reviews.any
        (fun x => x.business_user == target && x.reviewer == caller) = true :=
      List.any_eq_true.mpr ⟨r, hr, by
        rw [Bool.and_eq_true, beq_iff_eq, beq_iff_eq]
        exact ⟨hbu, hrev⟩⟩
    unfold review_create_view
    by_cases hperm : IsCustomerUser db caller = true
    · rw [if_pos hperm]
      cases hvb : validate_business_user db target with
      | error e => exact ⟨⟨e, rfl⟩, rfl⟩
      | ok _ =>
          cases hvf : validate_review_fields rating desc with
          | error e => exact ⟨⟨e, rfl⟩, rfl⟩
          | ok _ =>
              rw [if_pos hdup]
              exact ⟨⟨_, rfl⟩, rfl⟩
    · rw [if_neg hperm]
      exact ⟨⟨_, rfl⟩, rfl⟩
  · -- update (rating/description only) preserves the invariant
    intro reviewId rating desc
    unfold review_update_view
    cases hf : db.reviews.find? (fun r => r.id == reviewId) with
    | none => exact hinv
    | some r =>
        cases hvf : validate_review_fields rating desc with
        | error e => exact hinv
        | ok _ =>
            simp only []
            by_cases hself :
                (({ r with rating := rating, description := desc
                  } : ReviewRow).business_user ==
                 ({ r with rating := rating, description := desc
                  } : ReviewRow).reviewer) = true
            · rw [if_pos hself]; exact hinv
            · rw [if_neg hself]
              obtain ⟨l1, l2, heq, _, _, hrep⟩ :=
                find?_eq_some_split (fun x => x.id == reviewId) db.reviews r hf
              rw [hrep (fun _ => { r with rating := rating, description := desc })]
              constructor
              · intro x hx
                rcases List.mem_append.mp hx with hm | hm
                · exact hinv.1 x (by rw [heq]; exact List.mem_append_left _ hm)
                · rcases List.mem_cons.mp hm with rfl | hm2
                  · intro he
                    exact hself (beq_iff_eq.mpr he.symm)
                  · exact hinv.1 x
                      (by rw [heq]
                          exact List.mem_append_right _ (List.mem_cons_of_mem r hm2))
              · exact pairwise_pair_replace l1 l2 r _ rfl rfl (heq ▸ hinv.2)
  · -- delete preserves the invariant
    intro reviewId
    constructor
    · intro r hr
      exact hinv.1 r (List.mem_of_mem_filter hr)
    · exact hinv.2.sublist (List.filter_sublist _)

/-- Witness for C7: `exDB` satisfies the review invariant, a creation
attempt keeps it, and the duplicate review by customer 2 on business
user 1 is rejected. -/
theorem review_invariant_preserved_witness :
    reviewInvariant exDB.reviews ∧
    reviewInvariant (review_create_view exDB 2 1 4 "Second try, review!").2.reviews ∧
    (∃ e, (review_create_view exDB 2 1 4 "Second try, review!").1 =
       Except.error e) := by
  have hinv : reviewInvariant exDB.reviews := by
    constructor
    · decide
    · exact List.pairwise_singleton _ _
  have h := review_invariant_preserved exDB hinv
  exact ⟨hinv, h.1 2 1 4 "Second try, review!",
    (h.2.1 2 1 4 "Second try, review!" exReview (by decide) rfl rfl).1⟩

end Coderr
